import Mathlib

/-!
Verification of the lodestar-cli round automation core against its
natural-language specification.

The definitions below are a shallow embedding of the JavaScript source:

* `constants.mjs`   — the numeric model parameters (`PROTOCOL_CUT`, `C`,
  `P_WIN`, `HIT_PROB`, `REF_MULT`, `ADMIN_COST_FACTOR`, `SOL_PER_LAMPORT`)
  and the `APP_MODES` strings;
* `ev.mjs`          — `computeEVStarForBlock` and `getOreValueInSOL`;
* `detection.mjs`   — `analyzeBoardState`;
* `automation.mjs`  — `runAutomationCheck` and `resetRoundFlags`;
* `transactions.mjs`— `sendDeployTx` and `createSquaresMask`;
* `solana.mjs`      — `calculateRng`, `getWinningSquare`, `isSlotHashPopulated`;
* `game.mjs`        — `displayWinner` and `processBoardUpdate`.

JavaScript floating-point numbers are modelled as real numbers; the
JavaScript `-Infinity` sentinel for an expected value, and the `Infinity`
ratio sentinel, are modelled as `Option ℝ` with `none` for the infinite
sentinel.  Effects (logging, board analysis, transaction submission,
subscriptions) are modelled as explicit action traces.
-/

namespace Lodestar

noncomputable section

/-! ### constants.mjs -/

def SOL_PER_LAMPORT : ℝ := 1 / 1000000000

def REF_MULT : ℝ := 0.9

def ADMIN_FEE : ℝ := 0.01

def PROTOCOL_CUT : ℝ := 0.10

def P_WIN : ℝ := 1 / 25

def HIT_PROB : ℝ := 1 / 625

def ADMIN_COST_FACTOR : ℝ := ADMIN_FEE / (1 - ADMIN_FEE)

/-- `C = 24 + ADMIN_COST_FACTOR / P_WIN`, the constant of the EV model. -/
def C : ℝ := 24 + ADMIN_COST_FACTOR / P_WIN

namespace APP_MODES

def IDLE : String := "idle"

def ONE_X_EV : String := "1x EV"

def THREE_X_EV : String := "3x EV"

def FIVE_X_EV : String := "5x EV"

def TWENTY_FIVE_X_EV : String := "25x EV"

end APP_MODES

/-! ### Parsed on-chain records (`solana.mjs` layouts)

`ROUND_LAYOUT`: u64 id, 25 × u64 deployed, 32-byte slot hash, 25 × u64
count, u64 expires_at, u64 motherlode, two public keys (not modelled —
unused by the core), u64 top_miner_reward, u64 total_deployed,
u64 total_vaulted, u64 total_winnings.  The per-slot vectors are modelled
as functions from the index; only indices 0..24 are ever read. -/

structure RoundData where
  id : ℕ
  deployed : ℕ → ℕ
  slot_hash : List ℕ
  count : ℕ → ℕ
  expires_at : ℕ
  motherlode : ℕ
  top_miner_reward : ℕ
  total_deployed : ℕ
  total_vaulted : ℕ
  total_winnings : ℕ

/-- `BOARD_LAYOUT`: u64 round_id, u64 start_slot, u64 end_slot. -/
structure BoardData where
  round_id : ℕ
  start_slot : ℕ
  end_slot : ℕ

/-- `MINER_LAYOUT` (the fields the core reads). -/
structure MinerData where
  checkpoint_id : ℕ
  round_id : ℕ

/-! ### ev.mjs -/

/-- Result record of `computeEVStarForBlock`: `{ y, EV }`.  The JavaScript
`EV = -Infinity` sentinel is modelled as `EV = none`. -/
structure EVOut where
  y : ℝ
  EV : Option ℝ

/-- The value recomputation inside the loop of `computeEVStarForBlock`:
`V = (1 - PROTOCOL_CUT) * (T - O - yStar) + oreValueInSOL`.
At `y = 0` this is also the `V_initial` of step 2. -/
def reV (O T V0 y : ℝ) : ℝ := (1 - PROTOCOL_CUT) * (T - O - y) + V0

/-- The `yStar` update inside the loop:
`yStar = Math.max(0, Math.sqrt((V * O) / C) - O)`. -/
def updY (O V : ℝ) : ℝ := max 0 (Real.sqrt (V * O / C) - O)

/-- The three-pass refinement loop of `computeEVStarForBlock`, on the state
`(yStar, V)`.  Each pass first recomputes `V` from the current `yStar`,
breaks out if `V <= 0`, and otherwise updates `yStar` from the new `V`. -/
def evLoop (O T V0 : ℝ) : ℕ → ℝ × ℝ → ℝ × ℝ
  | 0, s => s
  | n + 1, s =>
    let V := reV O T V0 s.1
    if V ≤ 0 then (s.1, V) else evLoop O T V0 n (updY O V, V)

/-- `computeEVStarForBlock(O, T, oreValueInSOL)` from `ev.mjs`.  Real inputs
are always finite, so the JavaScript `!isFinite` halves of the guards are
identically false here. -/
def computeEVStarForBlock (O T oreValueInSOL : ℝ) : EVOut :=
  if O ≤ 0 then { y := 0, EV := none }
  else if T ≤ 0 then { y := 0, EV := none }
  else
    if reV O T oreValueInSOL 0 ≤ 0 then { y := 0, EV := none }
    else
      let s := evLoop O T oreValueInSOL 3
        (Real.sqrt (oreValueInSOL * O / C), reV O T oreValueInSOL 0)
      if s.1 ≤ 0 then { y := 0, EV := some 0 }
      else
        let f := s.1 / (O + s.1)
        let adminCost := ADMIN_COST_FACTOR * s.1
        { y := s.1, EV := some (P_WIN * (-24 * s.1 + s.2 * f) - adminCost) }

/-- `getOreValueInSOL(roundData)` from `ev.mjs`, with the `priceOreSol`
read from the global state passed explicitly.  `M` is the motherlode
rescaled by `10^-11`; the JavaScript guard `M != null && isFinite(M)` is
identically true for a parsed u64, so the `0.2` fallback branch is dead
and the main branch is modelled. -/
def getOreValueInSOL (priceOreSol : ℝ) (roundData : RoundData) : ℝ :=
  let M : ℝ := (roundData.motherlode : ℝ) * (1 / 10 ^ 11)
  let expectedMotherlodeOREThisRound := M * HIT_PROB
  priceOreSol * REF_MULT * (1 + expectedMotherlodeOREThisRound)

/-! ### detection.mjs -/

/-- Entry of the `ratios` list of `analyzeBoardState`.  The JavaScript
`Infinity` sentinel (zero participants) is modelled as `ratio = none`. -/
structure SquareRatio where
  id : ℕ
  sol : ℝ
  count : ℕ
  ratio : Option ℝ

/-- Entry of the `evs` list of `analyzeBoardState`.  The JavaScript
`-Infinity` sentinel is modelled as `ev = none`. -/
structure SquareEV where
  id : ℕ
  sol : ℝ
  ev : Option ℝ

/-- Entry of the `fullAnalysis` list of `analyzeBoardState`. -/
structure FullSquare where
  id : ℕ
  sol : ℝ
  count : ℕ
  ratio : Option ℝ
  ev : Option ℝ

/-- The analysis object returned by `analyzeBoardState`. -/
structure Analysis where
  bestEV : Option SquareEV
  bestRatio : Option SquareRatio
  byEV : List SquareEV
  byRatio : List SquareRatio
  fullAnalysis : List FullSquare

/-- The numeric expected value of an entry (the sort key of `b.ev - a.ev`;
entries that survive the positivity filter always carry `some`). -/
def evVal (e : SquareEV) : ℝ := e.ev.getD 0

/-- The numeric ratio of an entry (the sort key of `a.ratio - b.ratio`;
entries that survive the finiteness filter always carry `some`). -/
def ratioVal (e : SquareRatio) : ℝ := e.ratio.getD 0

/-- `filter(e => e.ev > 0)`: `-Infinity` (`none`) fails, `some v` passes
exactly when `v > 0`. -/
def evPos (e : SquareEV) : Bool :=
  match e.ev with
  | some v => decide (0 < v)
  | none => false

/-- `filter(r => r.ratio < Infinity && r.ratio > 0)`. -/
def ratioPosFin (e : SquareRatio) : Bool :=
  match e.ratio with
  | some v => decide (0 < v)
  | none => false

/-- The stable-sort ordering of `sort((a, b) => b.ev - a.ev)`: `a` stays
before `b` exactly when `b.ev <= a.ev` (descending, ties keep input
order). -/
def evLE (a b : SquareEV) : Bool := decide (evVal b ≤ evVal a)

/-- The stable-sort ordering of `sort((a, b) => a.ratio - b.ratio)`
(ascending). -/
def ratioLE (a b : SquareRatio) : Bool := decide (ratioVal a ≤ ratioVal b)

/-- One pass of the square loop of `analyzeBoardState`, ratio part:
`ratio = countVal > 0 ? sol / countVal : Infinity`. -/
def mkRatioEntry (rd : RoundData) (i : ℕ) : SquareRatio :=
  let countVal := rd.count i
  let sol := (rd.deployed i : ℝ) * SOL_PER_LAMPORT
  { id := i + 1, sol := sol, count := countVal,
    ratio := if 0 < countVal then some (sol / (countVal : ℝ)) else none }

/-- One pass of the square loop of `analyzeBoardState`, EV part: the slot's
own stake is `O`, and `evValue = isFinite(EV) ? EV : -Infinity` is the
identity on this model's `Option ℝ`. -/
def mkEVEntry (rd : RoundData) (T V0 : ℝ) (i : ℕ) : SquareEV :=
  let sol := (rd.deployed i : ℝ) * SOL_PER_LAMPORT
  { id := i + 1, sol := sol, ev := (computeEVStarForBlock sol T V0).EV }

/-- One pass of the square loop of `analyzeBoardState`, combined record. -/
def mkFullEntry (rd : RoundData) (T V0 : ℝ) (i : ℕ) : FullSquare :=
  let countVal := rd.count i
  let sol := (rd.deployed i : ℝ) * SOL_PER_LAMPORT
  { id := i + 1, sol := sol, count := countVal,
    ratio := if 0 < countVal then some (sol / (countVal : ℝ)) else none,
    ev := (computeEVStarForBlock sol T V0).EV }

/-- `analyzeBoardState(roundData)` from `detection.mjs`, with the
`priceOreSol` of the global state passed explicitly.  A `null` round
yields the empty analysis.  `List.mergeSort` is a stable sort, matching
the (ES2019) stable `Array.prototype.sort`. -/
def analyzeBoardState (priceOreSol : ℝ) (roundData : Option RoundData) : Analysis :=
  match roundData with
  | none =>
    { bestEV := none, bestRatio := none, byEV := [], byRatio := [], fullAnalysis := [] }
  | some rd =>
    let T := (rd.total_deployed : ℝ) * SOL_PER_LAMPORT
    let V0 := getOreValueInSOL priceOreSol rd
    let ratios := (List.range 25).map (mkRatioEntry rd)
    let evs := (List.range 25).map (mkEVEntry rd T V0)
    let fullAnalysis := (List.range 25).map (mkFullEntry rd T V0)
    let sortedByEV := (evs.filter evPos).mergeSort evLE
    let sortedByRatio := (ratios.filter ratioPosFin).mergeSort ratioLE
    { bestEV := sortedByEV.head?, bestRatio := sortedByRatio.head?,
      byEV := sortedByEV, byRatio := sortedByRatio, fullAnalysis := fullAnalysis }

/-! ### state.mjs -/

/-- The mutable fields of `appState` that the modelled core reads or
writes. -/
structure AppState where
  appMode : String
  isSpeculating : Bool
  isAudioEnabled : Bool
  customDeployAmount : ℝ
  priceOreSol : ℝ
  currentRoundId : ℤ
  currentBoardData : Option BoardData
  currentRoundData : Option RoundData
  isTransitioningRound : Bool
  checkpointHasRunThisRound : Bool
  automationHasRunThisRound : Bool
  winnerAnnounced : Bool
  lastWinner : String
  roundSubscriptionId : Option ℕ

/-! ### automation.mjs -/

def AUTOMATION_TRIGGER_SECONDS : ℤ := 8

/-- Observable effects of one `runAutomationCheck` invocation: a log line,
a board analysis, the speculation skip, or a `sendDeployTx` request. -/
inductive AutoAction where
  | logged
  | analyze
  | speculateSkip
  | deployRequest (targets : List SquareEV)

/-- `resetRoundFlags()` from `automation.mjs`. -/
def resetRoundFlags (s : AppState) : AppState :=
  { s with automationHasRunThisRound := false, checkpointHasRunThisRound := false }

/-- Step 4 of `runAutomationCheck`: the `switch (appMode)` with cases for
`ONE_X_EV`, `THREE_X_EV` and `FIVE_X_EV` only (every other mode falls
through with `targets = []`). -/
def selectTargets (appMode : String) (analysis : Analysis) : List SquareEV :=
  if appMode = APP_MODES.ONE_X_EV then
    match analysis.bestEV with
    | some b => [b]
    | none => []
  else if appMode = APP_MODES.THREE_X_EV then analysis.byEV.take 3
  else if appMode = APP_MODES.FIVE_X_EV then analysis.byEV.take 5
  else []

/-- `runAutomationCheck(roundData, secondsRemaining, connection)` from
`automation.mjs`.  `signerLoaded` models whether `getSigner()` returns a
keypair.  Returns the updated state and the trace of observable
effects, in program order. -/
def runAutomationCheck (s : AppState) (roundData : Option RoundData)
    (secondsRemaining : ℤ) (signerLoaded : Bool) : AppState × List AutoAction :=
  if s.appMode = APP_MODES.IDLE then (s, [])
  else if AUTOMATION_TRIGGER_SECONDS < secondsRemaining ∨ secondsRemaining ≤ 0 then (s, [])
  else if s.automationHasRunThisRound then (s, [])
  else
    let s1 := { s with automationHasRunThisRound := true }
    let analysis := analyzeBoardState s.priceOreSol roundData
    match analysis.bestEV with
    | none => (s1, [.logged, .analyze, .logged])
    | some _ =>
      let targets := selectTargets s.appMode analysis
      if targets.isEmpty then (s1, [.logged, .analyze, .logged])
      else if s.isSpeculating then
        (s1, [.logged, .analyze, .logged] ++ targets.map (fun _ => .logged) ++
          [.speculateSkip])
      else if signerLoaded then
        (s1, [.logged, .analyze, .logged] ++ targets.map (fun _ => .logged) ++
          [.deployRequest targets])
      else
        (s1, [.logged, .analyze, .logged] ++ targets.map (fun _ => .logged) ++
          [.logged, .logged])

/-! ### solana.mjs — RNG and game logic -/

/-- `isSlotHashPopulated(slotHash)`: true when some byte of the 32-byte
buffer is non-zero. -/
def isSlotHashPopulated (slotHash : List ℕ) : Bool :=
  slotHash.any (fun b => b != 0)

/-- `slotHash.readBigUInt64LE(offset)`: the 8-byte little-endian word at
the given byte offset. -/
def readBigUInt64LE (bytes : List ℕ) (offset : ℕ) : ℕ :=
  ∑ j ∈ Finset.range 8, bytes.getD (offset + j) 0 * 256 ^ j

/-- `calculateRng(slotHash)`: XOR of the four 8-byte little-endian words
at offsets 0, 8, 16, 24. -/
def calculateRng (slotHash : List ℕ) : ℕ :=
  let r1 := readBigUInt64LE slotHash 0
  let r2 := readBigUInt64LE slotHash 8
  let r3 := readBigUInt64LE slotHash 16
  let r4 := readBigUInt64LE slotHash 24
  ((r1 ^^^ r2) ^^^ r3) ^^^ r4

/-- `getWinningSquare(rng) = rng % 25`, a 0-based square index. -/
def getWinningSquare (rng : ℕ) : ℕ := rng % 25

/-! ### game.mjs -/

/-- `displayWinner(roundData, roundIdStr)` from `game.mjs`, reduced to its
state effect: gated by `winnerAnnounced`, it announces
`getWinningSquare(calculateRng(slot_hash)) + 1` (a 1-based square id)
exactly once per round.  The second component is the announced winner,
`none` when the announcement was already made. -/
def displayWinner (s : AppState) (roundData : RoundData) : AppState × Option ℕ :=
  if s.winnerAnnounced then (s, none)
  else
    let winner := getWinningSquare (calculateRng roundData.slot_hash) + 1
    ({ s with lastWinner := toString winner, winnerAnnounced := true }, some winner)

/-- Observable effects of one `processBoardUpdate` invocation. -/
inductive BoardAction where
  | finalizeOld (roundId : ℤ)
  | unsubscribed (subId : ℕ)
  | subscribed (roundId : ℤ)
  | processedRound

/-- `processBoardUpdate(accountInfo)` from `game.mjs`, with the parsed
board record and the result of the round-account fetch passed as explicit
inputs (`fetchedRound = none` models a missing account) and the id
returned by the new round subscription as `newSubId`.  `finalizeOldRound`
is abstracted as an action since its own fetches happen inside it; the
transition branch nets `isTransitioningRound` back to `false`. -/
def processBoardUpdate (s : AppState) (boardData : BoardData)
    (fetchedRound : Option RoundData) (newSubId : ℕ) : AppState × List BoardAction :=
  let s0 := { s with currentBoardData := some boardData }
  let newRoundId : ℤ := (boardData.round_id : ℤ)
  let step3 :=
    if newRoundId > s0.currentRoundId ∧ s0.currentRoundId > -1 then
      ({ s0 with isTransitioningRound := false }, [BoardAction.finalizeOld s0.currentRoundId])
    else (s0, ([] : List BoardAction))
  let s1 := step3.1
  let acts1 := step3.2
  if newRoundId = s1.currentRoundId then
    match fetchedRound with
    | some rd => ({ s1 with currentRoundData := some rd }, acts1 ++ [BoardAction.processedRound])
    | none => (s1, acts1)
  else
    let s2 := resetRoundFlags s1
    let s3 := { s2 with currentRoundId := newRoundId, currentRoundData := none,
                        winnerAnnounced := false }
    let acts2 := match s3.roundSubscriptionId with
      | some subId => [BoardAction.unsubscribed subId]
      | none => []
    let s4 := { s3 with roundSubscriptionId := some newSubId }
    match fetchedRound with
    | some rd =>
      ({ s4 with currentRoundData := some rd },
        acts1 ++ acts2 ++ [BoardAction.subscribed newRoundId, BoardAction.processedRound])
    | none => (s4, acts1 ++ acts2 ++ [BoardAction.subscribed newRoundId])

/-! ### transactions.mjs -/

/-- The instructions of the deploy transaction, in submission order. -/
inductive Instr where
  | setComputeUnitLimit (units : ℕ)
  | setComputeUnitPrice (microLamports : ℕ)
  | checkpoint (roundId : ℤ)
  | deploy (amountLamports : ℤ) (squaresMask : ℕ)

/-- `createSquaresMask(targets)`: a u32 bitmask with bit `id - 1` set for
each target whose 0-based index lies in `[0, 25)`. -/
def createSquaresMask (targets : List SquareEV) : ℕ :=
  targets.foldl
    (fun mask t =>
      let squareIndex : ℤ := (t.id : ℤ) - 1
      if 0 ≤ squareIndex ∧ squareIndex < 25 then
        mask ||| (1 <<< squareIndex.toNat)
      else mask)
    0

/-- `sendDeployTx(targets, connection, signer)` from `transactions.mjs`,
with its RPC reads passed as explicit inputs: `roundAccount` is the parsed
active-round account (`none` models both a missing account and a parse
failure, each of which aborts), and `minerAccount` the parsed miner
account (`none` falls back to `minerRoundId = minerCheckpointId = 0`).
Returns the instruction list of the single submitted transaction, or
`none` when the function returns without submitting. -/
def sendDeployTx (targets : List SquareEV) (signerLoaded : Bool)
    (currentRoundId : ℤ) (customDeployAmount : ℝ)
    (roundAccount : Option RoundData) (minerAccount : Option MinerData) :
    Option (List Instr) :=
  if ¬signerLoaded then none
  else if targets.isEmpty then none
  else
    match roundAccount with
    | none => none
    | some _ =>
      let minerRoundId : ℤ := match minerAccount with
        | some m => (m.round_id : ℤ)
        | none => 0
      let minerCheckpointId : ℤ := match minerAccount with
        | some m => (m.checkpoint_id : ℤ)
        | none => 0
      let isStateDirty := minerRoundId ≠ minerCheckpointId
      let canCheckpoint := minerRoundId < currentRoundId
      let amountLamports : ℤ := ⌊customDeployAmount / SOL_PER_LAMPORT⌋
      some
        ([Instr.setComputeUnitLimit 750000, Instr.setComputeUnitPrice 100000] ++
          (if isStateDirty ∧ canCheckpoint then [Instr.checkpoint minerRoundId] else []) ++
          [Instr.deploy amountLamports (createSquaresMask targets)])

/-! ### Specification formulas (for refinement comparison only)

These definitions follow the words of the specification, not the code;
they exist solely to be compared with the source-derived definitions
above. -/

/-- Modelled from the spec: the claimed final EV
`EV = winProbability * (-(numberOfSlots - 1) * y* + V_final * f) - adminCostFactor * y*`
with `f = y* / (O + y*)` and `V_final` the pool value recomputed with the
converged `y*` itself subtracted. -/
def specFinalEV (O T V0 y : ℝ) : ℝ :=
  P_WIN * (-(25 - 1) * y + reV O T V0 y * (y / (O + y))) - ADMIN_COST_FACTOR * y

/-- Modelled from the spec: the claimed external reward valuation
`rewardPoolSize * hitProbability * refiningMultiplier * externalPriceRatio`,
reading the pool size in whole reward-asset units (motherlode · 10^-11). -/
def specOreValueScaled (priceOreSol : ℝ) (rd : RoundData) : ℝ :=
  ((rd.motherlode : ℝ) * (1 / 10 ^ 11)) * HIT_PROB * REF_MULT * priceOreSol

/-- Modelled from the spec: the same claimed product, reading the pool size
in its raw smallest-denomination units. -/
def specOreValueRaw (priceOreSol : ℝ) (rd : RoundData) : ℝ :=
  (rd.motherlode : ℝ) * HIT_PROB * REF_MULT * priceOreSol

/-! ### Concrete example data -/

/-- The initial `appState` of `state.mjs`. -/
def initialAppState : AppState where
  appMode := APP_MODES.IDLE
  isSpeculating := false
  isAudioEnabled := false
  customDeployAmount := 0.0001
  priceOreSol := 0
  currentRoundId := -1
  currentBoardData := none
  currentRoundData := none
  isTransitioningRound := false
  checkpointHasRunThisRound := false
  automationHasRunThisRound := false
  winnerAnnounced := false
  lastWinner := "--"
  roundSubscriptionId := none

/-- An all-zero parsed round record. -/
def rdZero : RoundData where
  id := 0
  deployed := fun _ => 0
  slot_hash := List.replicate 32 0
  count := fun _ => 0
  expires_at := 0
  motherlode := 0
  top_miner_reward := 0
  total_deployed := 0
  total_vaulted := 0
  total_winnings := 0

/-- A round in which square 1 holds 1 SOL (10^9 lamports) with one
participant, every other square is empty, and the aggregate counter reads
24456 SOL.  With `priceTop` below as the ORE price this makes the EV
iteration for square 1 sit exactly at its fixed point `y* = 445`, with a
positive EV. -/
def rdTop : RoundData where
  id := 7
  deployed := fun i => if i = 0 then 1000000000 else 0
  slot_hash := List.replicate 32 0
  count := fun i => if i = 0 then 1 else 0
  expires_at := 0
  motherlode := 0
  top_miner_reward := 0
  total_deployed := 24456000000000
  total_vaulted := 0
  total_winnings := 0

/-- The ORE/SOL price paired with `rdTop`:
`getOreValueInSOL priceTop rdTop = 475458025 / 99 = C * 445 ^ 2`. -/
def priceTop : ℝ := 4754580250 / 891

/-- A round whose motherlode is 625 · 10^11 raw units (625 ORE). -/
def rdMother : RoundData where
  id := 3
  deployed := fun _ => 0
  slot_hash := List.replicate 32 0
  count := fun _ => 0
  expires_at := 0
  motherlode := 62500000000000
  top_miner_reward := 0
  total_deployed := 0
  total_vaulted := 0
  total_winnings := 0

/-- Counterexample input for the final-EV formula: `O` of the analysed
square. -/
def cexO : ℝ := 24010 / 891

/-- Counterexample input: total stake `T`. -/
def cexT : ℝ := 5160858851202590699801006 / 4903843631514682858641

/-- Counterexample input: external reward valuation `V0`. -/
def cexV : ℝ := 230274014573754495125 / 1089743029225485079698

/-- State used by witnesses: automation already fired this round. -/
def wStateFired : AppState :=
  { initialAppState with appMode := APP_MODES.ONE_X_EV, automationHasRunThisRound := true }

/-- State used by witnesses: `1x EV` mode, flag clear. -/
def wStateArmed : AppState :=
  { initialAppState with appMode := APP_MODES.ONE_X_EV }

/-- State used by witnesses: `3x EV` mode, flag clear. -/
def wStateArmed3 : AppState :=
  { initialAppState with appMode := APP_MODES.THREE_X_EV }

/-- State pairing `rdTop` with its price: `1x EV` mode, not speculating. -/
def wStateTop : AppState :=
  { initialAppState with appMode := APP_MODES.ONE_X_EV, priceOreSol := priceTop }

/-- The targets the `1x EV` mode selects on `rdTop`. -/
def tsTop : List SquareEV :=
  selectTargets APP_MODES.ONE_X_EV (analyzeBoardState priceTop (some rdTop))

/-- The analysis entry of square 1 of `rdTop`: 1 SOL deployed, EV
`19018321/99 > 0`. -/
def entryTop : SquareEV where
  id := 1
  sol := 1
  ev := some (19018321 / 99)

/-- A 32-byte entropy block whose first byte is 7 and the rest zero. -/
def hashSeven : List ℕ := 7 :: List.replicate 31 0

/-- A single deploy target, square 1. -/
def wTargets : List SquareEV := [{ id := 1, sol := 0, ev := none }]

/-- A miner record three rounds behind: `round_id = 3`, last checkpoint 0. -/
def wMiner : MinerData where
  checkpoint_id := 0
  round_id := 3

/-- A parsed board record for round 5. -/
def wBoard : BoardData where
  round_id := 5
  start_slot := 100
  end_slot := 200

/-! ## Helper lemmas on the Automation Trigger -/

theorem runAuto_noop_of_flag (s : AppState) (rd : Option RoundData) (secs : ℤ) (sg : Bool)
    (h : s.automationHasRunThisRound = true) :
    runAutomationCheck s rd secs sg = (s, []) := by
  unfold runAutomationCheck
  split_ifs <;> simp_all

theorem runAuto_noop_of_guards (s : AppState) (rd : Option RoundData) (secs : ℤ) (sg : Bool)
    (h : s.appMode = APP_MODES.IDLE ∨ secs ≤ 0 ∨ AUTOMATION_TRIGGER_SECONDS < secs) :
    runAutomationCheck s rd secs sg = (s, []) := by
  unfold runAutomationCheck
  by_cases hm : s.appMode = APP_MODES.IDLE
  · rw [if_pos hm]
  · rw [if_neg hm]
    have hw : AUTOMATION_TRIGGER_SECONDS < secs ∨ secs ≤ 0 := by
      rcases h with h | h | h
      · exact absurd h hm
      · exact Or.inr h
      · exact Or.inl h
    rw [if_pos hw]

theorem runAuto_window_prop (secs : ℤ) (h1 : 0 < secs) (h2 : secs ≤ AUTOMATION_TRIGGER_SECONDS) :
    ¬(AUTOMATION_TRIGGER_SECONDS < secs ∨ secs ≤ 0) := by
  unfold AUTOMATION_TRIGGER_SECONDS at h2 ⊢
  omega

theorem runAuto_sets_flag (s : AppState) (rd : Option RoundData) (secs : ℤ) (sg : Bool)
    (hmode : s.appMode ≠ APP_MODES.IDLE)
    (h1 : 0 < secs) (h2 : secs ≤ AUTOMATION_TRIGGER_SECONDS) :
    (runAutomationCheck s rd secs sg).1.automationHasRunThisRound = true := by
  unfold runAutomationCheck
  rw [if_neg hmode, if_neg (runAuto_window_prop secs h1 h2)]
  by_cases hf : s.automationHasRunThisRound
  · rw [if_pos hf]
    exact hf
  · rw [if_neg hf]
    dsimp only
    rcases hbe : (analyzeBoardState s.priceOreSol rd).bestEV with _ | b
    · simp only [hbe]
    · simp only [hbe]
      split_ifs <;> rfl

theorem runAuto_analyze_mem (s : AppState) (rd : Option RoundData) (secs : ℤ) (sg : Bool)
    (hmode : s.appMode ≠ APP_MODES.IDLE) (hf : s.automationHasRunThisRound = false)
    (h1 : 0 < secs) (h2 : secs ≤ AUTOMATION_TRIGGER_SECONDS) :
    AutoAction.analyze ∈ (runAutomationCheck s rd secs sg).2 := by
  unfold runAutomationCheck
  rw [if_neg hmode, if_neg (runAuto_window_prop secs h1 h2), if_neg (by simp [hf])]
  dsimp only
  rcases hbe : (analyzeBoardState s.priceOreSol rd).bestEV with _ | b
  · simp [hbe]
  · simp only [hbe]
    split_ifs <;> simp

/-! ## Claims on the Automation Trigger guards -/

/-- C1: the Automation Trigger fires at most once per round.  An
invocation that finds `automationHasRunThisRound` already set returns the
state unchanged with an empty effect trace — no board analysis, no
deployment request — regardless of mode or remaining seconds; and any
qualifying tick leaves the flag set in the resulting state, so a
re-entrant tick sees it. -/
theorem C1_automation_at_most_once_per_round :
    (∀ (s : AppState) (rd : Option RoundData) (secs : ℤ) (sg : Bool),
      s.automationHasRunThisRound = true →
      runAutomationCheck s rd secs sg = (s, [])) ∧
    (∀ (s : AppState) (rd : Option RoundData) (secs : ℤ) (sg : Bool),
      s.appMode ≠ APP_MODES.IDLE → 0 < secs → secs ≤ AUTOMATION_TRIGGER_SECONDS →
      (runAutomationCheck s rd secs sg).1.automationHasRunThisRound = true) :=
  ⟨fun s rd secs sg h => runAuto_noop_of_flag s rd secs sg h,
   fun s rd secs sg hmode h1 h2 => runAuto_sets_flag s rd secs sg hmode h1 h2⟩

/-- C1 witness: with the flag already set (`wStateFired`) the invocation
is an exact no-op, and a qualifying tick on the armed state leaves the
flag set. -/
theorem C1_witness :
    runAutomationCheck wStateFired none 5 true = (wStateFired, []) ∧
    (runAutomationCheck wStateArmed none 5 true).1.automationHasRunThisRound = true :=
  ⟨C1_automation_at_most_once_per_round.1 wStateFired none 5 true rfl,
   C1_automation_at_most_once_per_round.2 wStateArmed none 5 true (by decide) (by decide)
     (by decide)⟩

/-- C4: the Automation Trigger performs analysis only when the mode is not
idle, `secondsRemaining` lies in the inclusive window `(0, 8]` and the
flag is clear, and is an exact no-op otherwise; in particular a qualifying
tick performs the board analysis and sets the once-per-round flag. -/
theorem C4_trigger_guards :
    (∀ (s : AppState) (rd : Option RoundData) (secs : ℤ) (sg : Bool),
      s.appMode = APP_MODES.IDLE ∨ secs ≤ 0 ∨ AUTOMATION_TRIGGER_SECONDS < secs ∨
        s.automationHasRunThisRound = true →
      runAutomationCheck s rd secs sg = (s, [])) ∧
    (∀ (s : AppState) (rd : Option RoundData) (secs : ℤ) (sg : Bool),
      s.appMode ≠ APP_MODES.IDLE → s.automationHasRunThisRound = false →
      0 < secs → secs ≤ AUTOMATION_TRIGGER_SECONDS →
      AutoAction.analyze ∈ (runAutomationCheck s rd secs sg).2 ∧
      (runAutomationCheck s rd secs sg).1.automationHasRunThisRound = true) := by
  constructor
  · intro s rd secs sg h
    rcases h with h | h | h | h
    · exact runAuto_noop_of_guards s rd secs sg (Or.inl h)
    · exact runAuto_noop_of_guards s rd secs sg (Or.inr (Or.inl h))
    · exact runAuto_noop_of_guards s rd secs sg (Or.inr (Or.inr h))
    · exact runAuto_noop_of_flag s rd secs sg h
  · intro s rd secs sg hmode hf h1 h2
    exact ⟨runAuto_analyze_mem s rd secs sg hmode hf h1 h2,
      runAuto_sets_flag s rd secs sg hmode h1 h2⟩

/-- C4 witness: `secondsRemaining = 9` and `secondsRemaining = 0` are
no-ops on an armed state, while `secondsRemaining = 1` performs the
analysis and sets the flag. -/
theorem C4_witness :
    runAutomationCheck wStateArmed3 none 9 true = (wStateArmed3, []) ∧
    runAutomationCheck wStateArmed3 none 0 true = (wStateArmed3, []) ∧
    AutoAction.analyze ∈ (runAutomationCheck wStateArmed3 none 1 true).2 ∧
    (runAutomationCheck wStateArmed3 none 1 true).1.automationHasRunThisRound = true :=
  ⟨C4_trigger_guards.1 wStateArmed3 none 9 true (by right; right; left; decide),
   C4_trigger_guards.1 wStateArmed3 none 0 true (by right; left; decide),
   (C4_trigger_guards.2 wStateArmed3 none 1 true (by decide) (by decide) (by decide)
     (by decide)).1,
   (C4_trigger_guards.2 wStateArmed3 none 1 true (by decide) (by decide) (by decide)
     (by decide)).2⟩

/-- C9 (implicit): once the guards pass, the flag is set before the board
is analysed, so even an attempt that aborts without deploying leaves the
flag set, and every later invocation in the round — any round data,
seconds value or signer — is an exact no-op: a failed attempt consumes
the round's single trigger. -/
theorem C9_failed_attempt_consumes_trigger :
    ∀ (s : AppState) (rd : Option RoundData) (secs : ℤ) (sg : Bool),
      s.appMode ≠ APP_MODES.IDLE → 0 < secs → secs ≤ AUTOMATION_TRIGGER_SECONDS →
      (runAutomationCheck s rd secs sg).1.automationHasRunThisRound = true ∧
      ∀ (rd2 : Option RoundData) (secs2 : ℤ) (sg2 : Bool),
        runAutomationCheck (runAutomationCheck s rd secs sg).1 rd2 secs2 sg2 =
          ((runAutomationCheck s rd secs sg).1, []) := by
  intro s rd secs sg hmode h1 h2
  have hflag := runAuto_sets_flag s rd secs sg hmode h1 h2
  exact ⟨hflag, fun rd2 secs2 sg2 => runAuto_noop_of_flag _ rd2 secs2 sg2 hflag⟩

/-- C9 witness: on an armed `1x EV` state with no round data the attempt
aborts (no positive-EV square), yet the flag is consumed and a second
invocation in the round is a no-op. -/
theorem C9_witness :
    (runAutomationCheck wStateArmed none 5 true).1.automationHasRunThisRound = true ∧
    runAutomationCheck (runAutomationCheck wStateArmed none 5 true).1 (some rdZero) 3 true =
      ((runAutomationCheck wStateArmed none 5 true).1, []) :=
  ⟨(C9_failed_attempt_consumes_trigger wStateArmed none 5 true (by decide) (by decide)
      (by decide)).1,
   (C9_failed_attempt_consumes_trigger wStateArmed none 5 true (by decide) (by decide)
      (by decide)).2 (some rdZero) 3 true⟩

/-! ## Round-boundary handling -/

/-- C10 (implicit): on a board notification received while the tracked
round id still holds its startup sentinel `-1`, `processBoardUpdate`
performs no finalization of any prior round (the transition branch
requires the tracked id to exceed `-1`), and proceeds directly to
resetting the round flags and tracking the notified round. -/
theorem C10_sentinel_round_no_finalize :
    ∀ (s : AppState) (bd : BoardData) (fetched : Option RoundData) (newSubId : ℕ),
      s.currentRoundId = -1 →
      (∀ r : ℤ, BoardAction.finalizeOld r ∉ (processBoardUpdate s bd fetched newSubId).2) ∧
      (processBoardUpdate s bd fetched newSubId).1.automationHasRunThisRound = false ∧
      (processBoardUpdate s bd fetched newSubId).1.checkpointHasRunThisRound = false ∧
      (processBoardUpdate s bd fetched newSubId).1.winnerAnnounced = false ∧
      (processBoardUpdate s bd fetched newSubId).1.currentRoundId = (bd.round_id : ℤ) := by
  intro s bd fetched newSubId h
  have hq : ¬((bd.round_id : ℤ) > s.currentRoundId ∧ s.currentRoundId > -1) := by
    rw [h]; simp
  have hne : ¬((bd.round_id : ℤ) = s.currentRoundId) := by
    rw [h]; omega
  unfold processBoardUpdate
  dsimp only
  rw [if_neg hq]
  rw [if_neg hne]
  rcases fetched with _ | rd <;> rcases hs : s.roundSubscriptionId with _ | subId <;>
    simp [hs, resetRoundFlags]

/-- C10 witness: the initial state (tracked id `-1`) processing a round-5
board notification finalizes nothing, resets the flags and tracks
round 5. -/
theorem C10_witness :
    (∀ r : ℤ,
      BoardAction.finalizeOld r ∉ (processBoardUpdate initialAppState wBoard none 3).2) ∧
    (processBoardUpdate initialAppState wBoard none 3).1.automationHasRunThisRound = false ∧
    (processBoardUpdate initialAppState wBoard none 3).1.checkpointHasRunThisRound = false ∧
    (processBoardUpdate initialAppState wBoard none 3).1.winnerAnnounced = false ∧
    (processBoardUpdate initialAppState wBoard none 3).1.currentRoundId = (wBoard.round_id : ℤ) :=
  C10_sentinel_round_no_finalize initialAppState wBoard none 3 rfl

/-! ## Deployment Sequencer -/

/-- C5: `sendDeployTx` prepends a checkpoint (state-sync) instruction for
the miner's tracked round, inside the one submitted transaction and ahead
of the deploy (stake-commitment) instruction, exactly when the tracked
round differs from the last checkpointed round and is strictly older than
the active round. -/
theorem C5_checkpoint_prepend :
    ∀ (targets : List SquareEV) (currentRoundId : ℤ) (amount : ℝ) (rd : RoundData)
      (m : MinerData),
      targets.isEmpty = false →
      ∃ tx, sendDeployTx targets true currentRoundId amount (some rd) (some m) = some tx ∧
        (∀ r : ℤ, Instr.checkpoint r ∈ tx ↔
          r = (m.round_id : ℤ) ∧ (m.round_id : ℤ) ≠ (m.checkpoint_id : ℤ) ∧
          (m.round_id : ℤ) < currentRoundId) ∧
        ((m.round_id : ℤ) ≠ (m.checkpoint_id : ℤ) ∧ (m.round_id : ℤ) < currentRoundId →
          tx = [Instr.setComputeUnitLimit 750000, Instr.setComputeUnitPrice 100000,
            Instr.checkpoint (m.round_id : ℤ),
            Instr.deploy ⌊amount / SOL_PER_LAMPORT⌋ (createSquaresMask targets)]) ∧
        (¬((m.round_id : ℤ) ≠ (m.checkpoint_id : ℤ) ∧ (m.round_id : ℤ) < currentRoundId) →
          tx = [Instr.setComputeUnitLimit 750000, Instr.setComputeUnitPrice 100000,
            Instr.deploy ⌊amount / SOL_PER_LAMPORT⌋ (createSquaresMask targets)]) := by
  intro targets currentRoundId amount rd m h
  unfold sendDeployTx
  rw [if_neg (by simp), if_neg (by simp [h])]
  dsimp only
  by_cases hck : (m.round_id : ℤ) ≠ (m.checkpoint_id : ℤ) ∧ (m.round_id : ℤ) < currentRoundId
  · refine ⟨_, by rw [if_pos hck], ?_, fun _ => by simp, fun hc => absurd hck hc⟩
    intro r
    simp only [List.append_assoc, List.cons_append, List.nil_append, List.mem_cons,
      List.not_mem_nil, or_false]
    constructor
    · rintro (h | h | h | h) <;> simp_all
    · rintro ⟨hr, _⟩
      subst hr
      simp
  · refine ⟨_, by rw [if_neg hck], ?_, fun hc => absurd hc hck, fun _ => by simp⟩
    intro r
    simp only [List.append_assoc, List.cons_append, List.nil_append, List.mem_cons,
      List.not_mem_nil, or_false]
    constructor
    · rintro (h | h | h) <;> simp_all
    · rintro ⟨hr, hd, hl⟩
      exact absurd ⟨hd, hl⟩ hck

/-- C5 witness: a miner three rounds behind (tracked 3, checkpointed 0,
active round 5) gets the checkpoint instruction for round 3 placed ahead
of the deploy instruction in the one submitted transaction. -/
theorem C5_witness :
    wTargets.isEmpty = false ∧
    ∃ tx, sendDeployTx wTargets true 5 (1 / 10) (some rdZero) (some wMiner) = some tx ∧
      (∀ r : ℤ, Instr.checkpoint r ∈ tx ↔
        r = (wMiner.round_id : ℤ) ∧ (wMiner.round_id : ℤ) ≠ (wMiner.checkpoint_id : ℤ) ∧
        (wMiner.round_id : ℤ) < 5) ∧
      ((wMiner.round_id : ℤ) ≠ (wMiner.checkpoint_id : ℤ) ∧ (wMiner.round_id : ℤ) < 5 →
        tx = [Instr.setComputeUnitLimit 750000, Instr.setComputeUnitPrice 100000,
          Instr.checkpoint (wMiner.round_id : ℤ),
          Instr.deploy ⌊(1 / 10 : ℝ) / SOL_PER_LAMPORT⌋ (createSquaresMask wTargets)]) ∧
      (¬((wMiner.round_id : ℤ) ≠ (wMiner.checkpoint_id : ℤ) ∧ (wMiner.round_id : ℤ) < 5) →
        tx = [Instr.setComputeUnitLimit 750000, Instr.setComputeUnitPrice 100000,
          Instr.deploy ⌊(1 / 10 : ℝ) / SOL_PER_LAMPORT⌋ (createSquaresMask wTargets)]) :=
  ⟨rfl, C5_checkpoint_prepend wTargets 5 (1 / 10) rdZero wMiner rfl⟩

/-! ## Outcome derivation -/

/-- C6: outcome derivation is a deterministic function of the 32-byte
entropy block — the XOR of its four 8-byte little-endian words reduced
modulo 25 and offset by one is always a slot index in `[1, 25]`, equal
blocks give equal indices, an all-zero block is never treated as
populated, and `displayWinner` announces exactly this index. -/
theorem C6_outcome_derivation :
    (∀ slotHash : List ℕ,
      1 ≤ getWinningSquare (calculateRng slotHash) + 1 ∧
      getWinningSquare (calculateRng slotHash) + 1 ≤ 25) ∧
    (∀ b1 b2 : List ℕ, b1 = b2 →
      getWinningSquare (calculateRng b1) + 1 = getWinningSquare (calculateRng b2) + 1) ∧
    isSlotHashPopulated (List.replicate 32 0) = false ∧
    (∀ (s : AppState) (rd : RoundData), s.winnerAnnounced = false →
      (displayWinner s rd).2 = some (getWinningSquare (calculateRng rd.slot_hash) + 1)) := by
  refine ⟨fun slotHash => ⟨Nat.succ_le_succ (Nat.zero_le _), ?_⟩,
    fun b1 b2 h => by rw [h], by decide, fun s rd h => ?_⟩
  · have := Nat.mod_lt (calculateRng slotHash) (show 0 < 25 by norm_num)
    unfold getWinningSquare
    omega
  · unfold displayWinner
    rw [if_neg (by simp [h])]

/-- C6 witness: the block `07 00 … 00` yields winner `8 ∈ [1, 25]`, and
`displayWinner` on a fresh state announces the derived index. -/
theorem C6_witness :
    (1 ≤ getWinningSquare (calculateRng hashSeven) + 1 ∧
      getWinningSquare (calculateRng hashSeven) + 1 ≤ 25) ∧
    getWinningSquare (calculateRng hashSeven) + 1 =
      getWinningSquare (calculateRng hashSeven) + 1 ∧
    (displayWinner initialAppState rdZero).2 =
      some (getWinningSquare (calculateRng rdZero.slot_hash) + 1) :=
  ⟨C6_outcome_derivation.1 hashSeven,
   C6_outcome_derivation.2.1 hashSeven hashSeven rfl,
   C6_outcome_derivation.2.2.2 initialAppState rdZero rfl⟩

/-! ## External reward valuation -/

/-- C7 counterexample: at a 625-ORE motherlode and price ratio 1 the code
returns `0.9 * (1 + 1) = 1.8`, while the claimed product
`rewardPoolSize * hitProbability * refiningMultiplier * priceRatio` is
`0.9` (pool size in whole units) or `9 * 10^10` (raw units) — the claim
omits the `1 +` base-reward term. -/
theorem C7_counterexample :
    getOreValueInSOL 1 rdMother ≠ specOreValueScaled 1 rdMother ∧
    getOreValueInSOL 1 rdMother ≠ specOreValueRaw 1 rdMother := by
  constructor <;>
    simp only [getOreValueInSOL, specOreValueScaled, specOreValueRaw, rdMother, HIT_PROB,
      REF_MULT] <;>
    norm_num

/-- C7 amended: the external reward valuation equals the claimed product
`(motherlode * 10^-11) * hitProbability * refiningMultiplier * priceRatio`
plus the base term `refiningMultiplier * priceRatio` — the code computes
`priceOreSol * REF_MULT * (1 + M * HIT_PROB)`. -/
theorem C7_ore_valuation_amended :
    ∀ (p : ℝ) (rd : RoundData),
      getOreValueInSOL p rd = specOreValueScaled p rd + REF_MULT * p := by
  intro p rd
  unfold getOreValueInSOL specOreValueScaled
  ring

/-! ## Evaluating the EV iteration -/

theorem Cval : C = 2401 / 99 := by
  unfold C ADMIN_COST_FACTOR ADMIN_FEE P_WIN
  norm_num

theorem sqrt_eval {x q : ℝ} (hq : 0 ≤ q) (h : x = q ^ 2) : Real.sqrt x = q := by
  rw [h]
  exact Real.sqrt_sq hq

theorem evLoop_succ (O T V0 : ℝ) (n : ℕ) (y v : ℝ) :
    evLoop O T V0 (n + 1) (y, v) =
      if reV O T V0 y ≤ 0 then (y, reV O T V0 y)
      else evLoop O T V0 n (updY O (reV O T V0 y), reV O T V0 y) := rfl

/-- Unrolling of the three refinement passes when no pass breaks on
`V <= 0`: the returned `V` is the one recomputed from the penultimate
iterate, and the returned `yStar` is one update ahead of it. -/
theorem evLoop_three (O T V0 y0 v : ℝ)
    (h0 : ¬reV O T V0 y0 ≤ 0)
    (h1 : ¬reV O T V0 (updY O (reV O T V0 y0)) ≤ 0)
    (h2 : ¬reV O T V0 (updY O (reV O T V0 (updY O (reV O T V0 y0)))) ≤ 0) :
    evLoop O T V0 3 (y0, v) =
      (updY O (reV O T V0 (updY O (reV O T V0 (updY O (reV O T V0 y0))))),
        reV O T V0 (updY O (reV O T V0 (updY O (reV O T V0 y0))))) := by
  rw [show (3 : ℕ) = 2 + 1 from rfl, evLoop_succ, if_neg h0,
    show (2 : ℕ) = 1 + 1 from rfl, evLoop_succ, if_neg h1,
    show (1 : ℕ) = 0 + 1 from rfl, evLoop_succ, if_neg h2]
  rfl

/-- C3 amended: on guarded inputs where no refinement pass breaks and the
final iterate is positive, the returned EV is
`P_WIN * (-24 y* + V_final * f) - ADMIN_COST_FACTOR * y*` with
`f = y* / (O + y*)` — but `V_final` is the pool value recomputed from the
penultimate iterate `y2` (the loop recomputes `V` before it updates
`yStar`), not from the converged `y*` itself. -/
theorem C3_final_EV_uses_penultimate_iterate :
    ∀ O T V0 y0 y1 y2 : ℝ,
      ¬O ≤ 0 → ¬T ≤ 0 → ¬reV O T V0 0 ≤ 0 →
      y0 = Real.sqrt (V0 * O / C) →
      ¬reV O T V0 y0 ≤ 0 → y1 = updY O (reV O T V0 y0) →
      ¬reV O T V0 y1 ≤ 0 → y2 = updY O (reV O T V0 y1) →
      ¬reV O T V0 y2 ≤ 0 → ¬updY O (reV O T V0 y2) ≤ 0 →
      computeEVStarForBlock O T V0 =
        { y := updY O (reV O T V0 y2),
          EV := some (P_WIN * (-24 * updY O (reV O T V0 y2) +
              reV O T V0 y2 * (updY O (reV O T V0 y2) / (O + updY O (reV O T V0 y2)))) -
            ADMIN_COST_FACTOR * updY O (reV O T V0 y2)) } := by
  intro O T V0 y0 y1 y2 hO hT hV hy0 h0 hy1 h1 hy2 h2 hpos
  subst hy0
  subst hy1
  subst hy2
  unfold computeEVStarForBlock
  rw [if_neg hO, if_neg hT, if_neg hV]
  dsimp only
  rw [evLoop_three O T V0 _ _ h0 h1 h2]
  rw [if_neg hpos]

theorem reV_fp_eval : reV 1 (24604 / 297) (2401 / 99) 1 = 9604 / 99 := by
  unfold reV PROTOCOL_CUT
  norm_num

theorem updY_fp_eval : updY 1 (9604 / 99) = 1 := by
  unfold updY
  rw [Cval, sqrt_eval (q := 2) (by norm_num) (by norm_num)]
  norm_num

/-- C3 amended witness: at the fixed-point input `O = 1, T = 24604/297,
V0 = 2401/99` every iterate equals 1 and the theorem's conclusion holds
with its hypotheses discharged. -/
theorem C3_witness :
    computeEVStarForBlock 1 (24604 / 297) (2401 / 99) =
      { y := updY 1 (reV 1 (24604 / 297) (2401 / 99) 1),
        EV := some (P_WIN * (-24 * updY 1 (reV 1 (24604 / 297) (2401 / 99) 1) +
            reV 1 (24604 / 297) (2401 / 99) 1 *
              (updY 1 (reV 1 (24604 / 297) (2401 / 99) 1) /
                (1 + updY 1 (reV 1 (24604 / 297) (2401 / 99) 1)))) -
          ADMIN_COST_FACTOR * updY 1 (reV 1 (24604 / 297) (2401 / 99) 1)) } :=
  C3_final_EV_uses_penultimate_iterate 1 (24604 / 297) (2401 / 99) 1 1 1
    (by norm_num) (by norm_num)
    (by unfold reV PROTOCOL_CUT; norm_num)
    (by
      have h : (2401 / 99 : ℝ) * 1 / C = 1 := by rw [Cval]; norm_num
      rw [h, Real.sqrt_one])
    (by rw [reV_fp_eval]; norm_num)
    (by rw [reV_fp_eval, updY_fp_eval])
    (by rw [reV_fp_eval]; norm_num)
    (by rw [reV_fp_eval, updY_fp_eval])
    (by rw [reV_fp_eval]; norm_num)
    (by rw [reV_fp_eval, updY_fp_eval]; norm_num)

theorem cex_V0_eval :
    reV cexO cexT cexV (33931844525 / 70027449129) = 35896559289362 / 38904138405 := by
  unfold reV cexO cexT cexV PROTOCOL_CUT
  norm_num

theorem cex_upd1_eval : updY cexO (35896559289362 / 38904138405) = 1342112 / 264627 := by
  unfold updY cexO
  rw [Cval, sqrt_eval (q := 8473082 / 264627) (by norm_num) (by norm_num)]
  norm_num

theorem cex_V1_eval : reV cexO cexT cexV (1342112 / 264627) = 162051245 / 176418 := by
  unfold reV cexO cexT cexV PROTOCOL_CUT
  norm_num

theorem cex_upd2_eval : updY cexO (162051245 / 176418) = 5 := by
  unfold updY cexO
  rw [Cval, sqrt_eval (q := 28465 / 891) (by norm_num) (by norm_num)]
  norm_num

theorem cex_V2_eval : reV cexO cexT cexV 5 = 405156578 / 441045 := by
  unfold reV cexO cexT cexV PROTOCOL_CUT
  norm_num

theorem cex_upd3_eval : updY cexO (405156578 / 441045) = 4456 / 891 := by
  unfold updY cexO
  rw [Cval, sqrt_eval (q := 28466 / 891) (by norm_num) (by norm_num)]
  norm_num

/-- Full evaluation of `computeEVStarForBlock` at the counterexample
input: the iterates are `y0 ≈ 0.4846`, `y1 ≈ 5.0717`, `y2 = 5`,
`y3 = 4456/891 ≈ 5.0011`, and the returned EV uses the `V` recomputed
from `y2`, not from `y3`. -/
theorem computeEV_cex_eval :
    computeEVStarForBlock cexO cexT cexV =
      { y := 4456 / 891, EV := some (9927968 / 11026125) } := by
  have h0 : Real.sqrt (cexV * cexO / C) = 33931844525 / 70027449129 := by
    rw [Cval]
    exact sqrt_eval (by norm_num) (by unfold cexV cexO; norm_num)
  have hb0 : ¬reV cexO cexT cexV (33931844525 / 70027449129) ≤ 0 := by
    rw [cex_V0_eval]; norm_num
  have hb1 : ¬reV cexO cexT cexV
      (updY cexO (reV cexO cexT cexV (33931844525 / 70027449129))) ≤ 0 := by
    rw [cex_V0_eval, cex_upd1_eval, cex_V1_eval]; norm_num
  have hb2 : ¬reV cexO cexT cexV (updY cexO (reV cexO cexT cexV
      (updY cexO (reV cexO cexT cexV (33931844525 / 70027449129))))) ≤ 0 := by
    rw [cex_V0_eval, cex_upd1_eval, cex_V1_eval, cex_upd2_eval, cex_V2_eval]; norm_num
  unfold computeEVStarForBlock
  rw [if_neg (by unfold cexO; norm_num), if_neg (by unfold cexT; norm_num),
    if_neg (by unfold reV cexO cexT cexV PROTOCOL_CUT; norm_num)]
  dsimp only
  rw [h0]
  rw [evLoop_three cexO cexT cexV _ _ hb0 hb1 hb2]
  rw [cex_V0_eval, cex_upd1_eval, cex_V1_eval, cex_upd2_eval, cex_V2_eval, cex_upd3_eval]
  rw [if_neg (by norm_num)]
  have : P_WIN * (-24 * (4456 / 891 : ℝ) + 405156578 / 441045 *
      (4456 / 891 / (cexO + 4456 / 891))) - ADMIN_COST_FACTOR * (4456 / 891) =
      9927968 / 11026125 := by
    unfold P_WIN ADMIN_COST_FACTOR ADMIN_FEE cexO
    norm_num
  rw [this]

theorem reV_top_eval : reV 1 24456 (475458025 / 99) 445 = 477597316 / 99 := by
  unfold reV PROTOCOL_CUT
  norm_num

theorem updY_top_eval : updY 1 (477597316 / 99) = 445 := by
  unfold updY
  rw [Cval, sqrt_eval (q := 446) (by norm_num) (by norm_num)]
  norm_num

/-- The EV iteration on square 1 of `rdTop` sits at its fixed point
`y* = 445` and returns the positive EV `19018321/99`. -/
theorem computeEV_top_eval :
    computeEVStarForBlock 1 24456 (475458025 / 99) =
      { y := 445, EV := some (19018321 / 99) } := by
  have h0 : Real.sqrt ((475458025 / 99 : ℝ) * 1 / C) = 445 := by
    rw [Cval]
    exact sqrt_eval (by norm_num) (by norm_num)
  have hb : ¬reV 1 24456 (475458025 / 99) (445 : ℝ) ≤ 0 := by
    rw [reV_top_eval]; norm_num
  have hb1 : ¬reV 1 24456 (475458025 / 99)
      (updY 1 (reV 1 24456 (475458025 / 99) 445)) ≤ 0 := by
    rw [reV_top_eval, updY_top_eval, reV_top_eval]; norm_num
  have hb2 : ¬reV 1 24456 (475458025 / 99) (updY 1 (reV 1 24456 (475458025 / 99)
      (updY 1 (reV 1 24456 (475458025 / 99) 445)))) ≤ 0 := by
    rw [reV_top_eval, updY_top_eval, reV_top_eval, updY_top_eval, reV_top_eval]; norm_num
  unfold computeEVStarForBlock
  rw [if_neg (by norm_num), if_neg (by norm_num),
    if_neg (by unfold reV PROTOCOL_CUT; norm_num)]
  dsimp only
  rw [h0]
  rw [evLoop_three 1 24456 (475458025 / 99) 445 _ hb hb1 hb2]
  rw [reV_top_eval, updY_top_eval, reV_top_eval, updY_top_eval, reV_top_eval, updY_top_eval]
  rw [if_neg (by norm_num)]
  have h : P_WIN * (-24 * (445 : ℝ) + 477597316 / 99 * (445 / (1 + 445))) -
      ADMIN_COST_FACTOR * 445 = 19018321 / 99 := by
    unfold P_WIN ADMIN_COST_FACTOR ADMIN_FEE
    norm_num
  rw [h]

theorem mkEV_top_eval :
    mkEVEntry rdTop ((rdTop.total_deployed : ℝ) * SOL_PER_LAMPORT)
      (getOreValueInSOL priceTop rdTop) 0 = entryTop := by
  have hsol : ((rdTop.deployed 0 : ℕ) : ℝ) * SOL_PER_LAMPORT = 1 := by
    simp only [rdTop, SOL_PER_LAMPORT, if_pos]
    norm_num
  have hT : ((rdTop.total_deployed : ℕ) : ℝ) * SOL_PER_LAMPORT = 24456 := by
    simp only [rdTop, SOL_PER_LAMPORT]
    norm_num
  have hV0 : getOreValueInSOL priceTop rdTop = 475458025 / 99 := by
    unfold getOreValueInSOL
    simp only [rdTop, priceTop, REF_MULT, HIT_PROB]
    norm_num
  unfold mkEVEntry
  dsimp only
  rw [hsol, hT, hV0, computeEV_top_eval]
  rfl

/-- Square 1's entry survives the positivity filter and so lies in the
`byEV` ranking of `rdTop`. -/
theorem entryTop_mem : entryTop ∈ (analyzeBoardState priceTop (some rdTop)).byEV := by
  unfold analyzeBoardState
  dsimp only
  rw [List.mem_mergeSort, List.mem_filter]
  constructor
  · rw [List.mem_map]
    exact ⟨0, by simp, mkEV_top_eval⟩
  · unfold entryTop evPos
    simp only [decide_eq_true_eq]
    norm_num

theorem byEV_top_ne_nil : (analyzeBoardState priceTop (some rdTop)).byEV ≠ [] :=
  List.ne_nil_of_mem entryTop_mem

theorem analyzeBoardState_bestEV_eq (p : ℝ) (rdOpt : Option RoundData) :
    (analyzeBoardState p rdOpt).bestEV = (analyzeBoardState p rdOpt).byEV.head? := by
  cases rdOpt <;> rfl

/-- C2 counterexample: on `rdTop` exactly one square has positive EV, so
the claim requires the `25x EV` mode to select one target; the switch in
`runAutomationCheck` has no case for that mode and selects none. -/
theorem C2_counterexample :
    selectTargets APP_MODES.TWENTY_FIVE_X_EV (analyzeBoardState priceTop (some rdTop)) = [] ∧
    (analyzeBoardState priceTop (some rdTop)).byEV ≠ [] ∧
    (analyzeBoardState priceTop (some rdTop)).byEV.take 25 ≠ [] := by
  refine ⟨?_, byEV_top_ne_nil, ?_⟩
  · unfold selectTargets
    rw [if_neg (by decide), if_neg (by decide), if_neg (by decide)]
  · simp only [ne_eq, List.take_eq_nil_iff]
    push_neg
    exact ⟨by norm_num, byEV_top_ne_nil⟩

/-- C2 amended: `1x EV` selects the best-EV square, `3x EV`/`5x EV` take
that many top-EV squares (fewer if unavailable), while `25x EV`, `idle`
and every unknown mode select none; and every deployment request the
trigger issues carries exactly the mode's selected, non-empty target
list. -/
theorem C2_target_selection_amended :
    (∀ a : Analysis,
      selectTargets APP_MODES.ONE_X_EV a =
        (match a.bestEV with | some b => [b] | none => []) ∧
      selectTargets APP_MODES.THREE_X_EV a = a.byEV.take 3 ∧
      selectTargets APP_MODES.FIVE_X_EV a = a.byEV.take 5 ∧
      selectTargets APP_MODES.TWENTY_FIVE_X_EV a = [] ∧
      selectTargets APP_MODES.IDLE a = []) ∧
    (∀ (s : AppState) (rd : Option RoundData) (secs : ℤ) (sg : Bool)
        (ts : List SquareEV),
      AutoAction.deployRequest ts ∈ (runAutomationCheck s rd secs sg).2 →
      ts = selectTargets s.appMode (analyzeBoardState s.priceOreSol rd) ∧ ts ≠ []) := by
  constructor
  · intro a
    refine ⟨?_, ?_, ?_, ?_, ?_⟩ <;> unfold selectTargets
    · rw [if_pos rfl]
    · rw [if_neg (by decide), if_pos rfl]
    · rw [if_neg (by decide), if_neg (by decide), if_pos rfl]
    · rw [if_neg (by decide), if_neg (by decide), if_neg (by decide)]
    · rw [if_neg (by decide), if_neg (by decide), if_neg (by decide)]
  · intro s rd secs sg ts hmem
    unfold runAutomationCheck at hmem
    by_cases h1 : s.appMode = APP_MODES.IDLE
    · rw [if_pos h1] at hmem
      simp at hmem
    rw [if_neg h1] at hmem
    by_cases h2 : AUTOMATION_TRIGGER_SECONDS < secs ∨ secs ≤ 0
    · rw [if_pos h2] at hmem
      simp at hmem
    rw [if_neg h2] at hmem
    by_cases h3 : s.automationHasRunThisRound = true
    · rw [if_pos h3] at hmem
      simp at hmem
    rw [if_neg h3] at hmem
    dsimp only at hmem
    rcases hbe : (analyzeBoardState s.priceOreSol rd).bestEV with _ | b
    · rw [hbe] at hmem
      simp at hmem
    rw [hbe] at hmem
    by_cases ht : (selectTargets s.appMode (analyzeBoardState s.priceOreSol rd)).isEmpty = true
    · rw [if_pos ht] at hmem
      simp at hmem
    rw [if_neg ht] at hmem
    by_cases hs : s.isSpeculating = true
    · rw [if_pos hs] at hmem
      simp at hmem
    rw [if_neg hs] at hmem
    by_cases hsg : sg = true
    · rw [if_pos hsg] at hmem
      simp at hmem
      refine ⟨hmem, ?_⟩
      intro hnil
      apply ht
      rw [← hmem, hnil]
      rfl
    · rw [if_neg hsg] at hmem
      simp at hmem

/-- On `rdTop` in `1x EV` mode with a signer and no dry run, the trigger
issues a deployment request for the selected targets. -/
theorem deploy_mem_top :
    AutoAction.deployRequest tsTop ∈ (runAutomationCheck wStateTop (some rdTop) 5 true).2 := by
  obtain ⟨b, t, hbt⟩ := List.exists_cons_of_ne_nil byEV_top_ne_nil
  have hbe : (analyzeBoardState priceTop (some rdTop)).bestEV = some b := by
    rw [analyzeBoardState_bestEV_eq, hbt]
    rfl
  have hsel : selectTargets APP_MODES.ONE_X_EV (analyzeBoardState priceTop (some rdTop)) =
      [b] := by
    unfold selectTargets
    rw [if_pos rfl, hbe]
  have hprice : wStateTop.priceOreSol = priceTop := rfl
  have hmode : wStateTop.appMode = APP_MODES.ONE_X_EV := rfl
  have htst : tsTop = [b] := hsel
  unfold runAutomationCheck
  rw [if_neg (by decide), if_neg (by decide), if_neg (by decide)]
  dsimp only
  rw [hprice, hmode]
  simp only [hbe]
  rw [hsel]
  rw [if_neg (by simp), if_neg (by decide), if_pos trivial, htst]
  simp

/-- C2 amended witness: on `rdTop` the `1x EV` trigger issues one
deployment request, and its payload is exactly the mode's selected,
non-empty target list. -/
theorem C2_witness :
    AutoAction.deployRequest tsTop ∈ (runAutomationCheck wStateTop (some rdTop) 5 true).2 ∧
    (tsTop = selectTargets wStateTop.appMode
        (analyzeBoardState wStateTop.priceOreSol (some rdTop)) ∧ tsTop ≠ []) :=
  ⟨deploy_mem_top,
   C2_target_selection_amended.2 wStateTop (some rdTop) 5 true tsTop deploy_mem_top⟩

/-! ## Ranked views of the Board Analyzer -/

theorem evLE_trans : ∀ a b c : SquareEV, evLE a b → evLE b c → evLE a c := by
  intro a b c hab hbc
  simp only [evLE, decide_eq_true_eq] at *
  exact hbc.trans hab

theorem evLE_total : ∀ a b : SquareEV, evLE a b || evLE b a := by
  intro a b
  simp only [evLE, Bool.or_eq_true, decide_eq_true_eq]
  exact le_total (evVal b) (evVal a)

theorem ratioLE_trans : ∀ a b c : SquareRatio, ratioLE a b → ratioLE b c → ratioLE a c := by
  intro a b c hab hbc
  simp only [ratioLE, decide_eq_true_eq] at *
  exact hab.trans hbc

theorem ratioLE_total : ∀ a b : SquareRatio, ratioLE a b || ratioLE b a := by
  intro a b
  simp only [ratioLE, Bool.or_eq_true, decide_eq_true_eq]
  exact le_total (ratioVal a) (ratioVal b)

/-- Two distinct members of a list occur in one of the two orders. -/
theorem sublist_pair_of_mem {α : Type _} {x y : α} {l : List α} (hne : x ≠ y)
    (hx : x ∈ l) (hy : y ∈ l) : List.Sublist [x, y] l ∨ List.Sublist [y, x] l := by
  induction l with
  | nil => cases hx
  | cons a t ih =>
    rcases List.mem_cons.mp hx with rfl | hx2
    · rcases List.mem_cons.mp hy with rfl | hy2
      · exact absurd rfl hne
      · exact Or.inl (List.Sublist.cons₂ _ (List.singleton_sublist.mpr hy2))
    · rcases List.mem_cons.mp hy with rfl | hy2
      · exact Or.inr (List.Sublist.cons₂ _ (List.singleton_sublist.mpr hx2))
      · exact (ih hx2 hy2).imp (List.Sublist.cons a) (List.Sublist.cons a)

/-- In a duplicate-free list a pair cannot occur in both orders. -/
theorem eq_of_pair_sublists_of_nodup {α : Type _} {x y : α} {l : List α} (hl : l.Nodup)
    (h1 : List.Sublist [x, y] l) (h2 : List.Sublist [y, x] l) : x = y := by
  induction l with
  | nil => cases h1
  | cons a t ih =>
    have hnd := List.nodup_cons.mp hl
    cases h1 with
    | cons _ h1' =>
      cases h2 with
      | cons _ h2' => exact ih hnd.2 h1' h2'
      | cons₂ h2' =>
        exact absurd (h1'.subset (by simp)) hnd.1
    | cons₂ h1' =>
      cases h2 with
      | cons _ h2' =>
        exact absurd (h2'.subset (by simp)) hnd.1
      | cons₂ h2' => rfl

/-- C8: `byRatio` holds only squares with participants and a positive
finite ratio, ascending by ratio; `byEV` holds only squares with strictly
positive EV, descending by EV with ties broken by the original square id
ascending (the filter precedes a stable sort over the id-ordered square
list). -/
theorem C8_ranked_views :
    ∀ (p : ℝ) (rdOpt : Option RoundData),
      ((analyzeBoardState p rdOpt).byRatio.Forall fun e =>
        e.count ≠ 0 ∧ ∃ v, e.ratio = some v ∧ 0 < v) ∧
      (analyzeBoardState p rdOpt).byRatio.Pairwise (fun x y => ratioVal x ≤ ratioVal y) ∧
      ((analyzeBoardState p rdOpt).byEV.Forall fun e => ∃ v, e.ev = some v ∧ 0 < v) ∧
      (analyzeBoardState p rdOpt).byEV.Pairwise
        (fun x y => evVal y < evVal x ∨ (evVal x = evVal y ∧ x.id < y.id)) := by
  intro p rdOpt
  cases rdOpt with
  | none => exact ⟨trivial, List.Pairwise.nil, trivial, List.Pairwise.nil⟩
  | some rd =>
    unfold analyzeBoardState
    dsimp only
    refine ⟨?_, ?_, ?_, ?_⟩
    · -- byRatio membership facts
      rw [List.forall_iff_forall_mem]
      intro e he
      rw [List.mem_mergeSort, List.mem_filter] at he
      obtain ⟨hm, hp⟩ := he
      rw [List.mem_map] at hm
      obtain ⟨i, _, rfl⟩ := hm
      unfold mkRatioEntry at hp ⊢
      dsimp only at hp ⊢
      by_cases hc : 0 < rd.count i
      · rw [if_pos hc] at hp ⊢
        unfold ratioPosFin at hp
        simp only [decide_eq_true_eq] at hp
        exact ⟨by omega, _, rfl, hp⟩
      · rw [if_neg hc] at hp
        simp [ratioPosFin] at hp
    · -- byRatio ascending
      exact (List.sorted_mergeSort ratioLE_trans ratioLE_total _).imp
        (by intro a b h; simpa [ratioLE] using h)
    · -- byEV membership facts
      rw [List.forall_iff_forall_mem]
      intro e he
      rw [List.mem_mergeSort, List.mem_filter] at he
      obtain ⟨hm, hp⟩ := he
      unfold evPos at hp
      cases hev : e.ev with
      | none => rw [hev] at hp; simp at hp
      | some v =>
        rw [hev] at hp
        simp only [decide_eq_true_eq] at hp
        exact ⟨v, rfl, hp⟩
    · -- byEV descending with id tie-break
      have hid : (((List.range 25).map (mkEVEntry rd
          ((rd.total_deployed : ℝ) * SOL_PER_LAMPORT)
          (getOreValueInSOL p rd))).filter evPos).Pairwise
          (fun a b => a.id < b.id) := by
        apply List.Pairwise.filter
        rw [List.pairwise_map]
        exact (List.pairwise_lt_range 25).imp (fun h => Nat.succ_lt_succ h)
      have hnd₀ : (((List.range 25).map (mkEVEntry rd
          ((rd.total_deployed : ℝ) * SOL_PER_LAMPORT)
          (getOreValueInSOL p rd))).filter evPos).Nodup :=
        hid.imp (fun h heq => by rw [heq] at h; exact lt_irrefl _ h)
      have hnd := (List.mergeSort_perm _ evLE).nodup_iff.mpr hnd₀
      have hsorted := List.sorted_mergeSort evLE_trans evLE_total
        (((List.range 25).map (mkEVEntry rd
          ((rd.total_deployed : ℝ) * SOL_PER_LAMPORT)
          (getOreValueInSOL p rd))).filter evPos)
      rw [List.pairwise_iff_forall_sublist]
      intro x y hxy
      have hLE : evVal y ≤ evVal x := by
        have := List.pairwise_iff_forall_sublist.mp hsorted hxy
        simpa [evLE] using this
      rcases lt_or_eq_of_le hLE with hlt | heq
      · exact Or.inl hlt
      · right
        have hxynd := hnd.sublist hxy
        have hne : x ≠ y := by
          intro h
          subst h
          simp at hxynd
        have hx₀ := List.mem_mergeSort.mp (hxy.subset (show x ∈ [x, y] by simp))
        have hy₀ := List.mem_mergeSort.mp (hxy.subset (show y ∈ [x, y] by simp))
        rcases sublist_pair_of_mem hne hx₀ hy₀ with h0 | h0
        · exact ⟨heq.symm, List.pairwise_iff_forall_sublist.mp hid h0⟩
        · exfalso
          have hyx := List.pair_sublist_mergeSort evLE_trans evLE_total
            (by simp only [evLE, decide_eq_true_eq]; exact le_of_eq heq.symm) h0
          exact hne (eq_of_pair_sublists_of_nodup hnd hxy hyx)

/-- C3 counterexample: at `O = cexO, T = cexT, V0 = cexV` all the claim's
hypotheses hold (positive inputs, positive pool value, positive converged
`y*`), yet the returned EV differs from the claimed formula in which
`V_final` is recomputed with the converged `y*` subtracted. -/
theorem C3_counterexample :
    0 < cexO ∧ 0 < cexT ∧ 0 < reV cexO cexT cexV 0 ∧
    0 < (computeEVStarForBlock cexO cexT cexV).y ∧
    (computeEVStarForBlock cexO cexT cexV).EV ≠
      some (specFinalEV cexO cexT cexV (computeEVStarForBlock cexO cexT cexV).y) := by
  refine ⟨by unfold cexO; norm_num, by unfold cexT; norm_num,
    by unfold reV cexO cexT cexV PROTOCOL_CUT; norm_num, ?_, ?_⟩
  · rw [computeEV_cex_eval]; norm_num
  · rw [computeEV_cex_eval]
    simp only [ne_eq, Option.some.injEq]
    unfold specFinalEV reV P_WIN ADMIN_COST_FACTOR ADMIN_FEE PROTOCOL_CUT cexO cexT cexV
    norm_num

end

end Lodestar
